import Mathlib

/-!
# Verification of the Message Search Engine

A shallow embedding of the two search engines of this repository
(`main.py`, class `MessageSearchEngine`, and `main_optimized.py`, class
`OptimizedMessageSearchEngine`) together with proofs about their
query-resolution and pagination behaviour.

Modelling conventions:
* Python strings are lists of Unicode code points (`Str := List Nat`);
  `str.lower()` is the ASCII lower-casing map applied pointwise,
  `str.strip()` removes leading and trailing whitespace code points,
  `str.split()` splits on runs of whitespace discarding empty tokens,
  and the `in` operator on strings is the substring test `isSubstr`.
* Python `dict` (used for the two inverted indices) is an insertion-ordered
  association list `List (Str × List Nat)`.
* Python integers are `Int`; Python floor division `//` is `Int.fdiv` and
  Python list slicing `xs[a:b]` is `pySlice` (with the negative-index
  wrap-around and clipping semantics of CPython).
* `time.perf_counter()` differences are not computable in the embedding:
  the measured elapsed time is passed to the search functions as an
  explicit parameter, which flows only into the `query_time_ms` field,
  mirroring the data flow of the source.
-/

/-- Python strings, modelled as lists of Unicode code points. -/
abbrev Str := List Nat

/-- One character of Python `str.lower()` restricted to the ASCII range:
code points 65–90 (`A`–`Z`) map to 97–122 (`a`–`z`), everything else is
fixed. -/
def lowerC (c : Nat) : Nat := if 65 ≤ c ∧ c ≤ 90 then c + 32 else c

/-- Python `str.lower()`: lower-case every character. -/
def lowerS (s : Str) : Str := s.map lowerC

/-- Python whitespace test for `str.strip()` / `str.split()`:
tab, newline, vertical tab, form feed, carriage return, space. -/
def isSpaceC (c : Nat) : Bool :=
  c == 9 || c == 10 || c == 11 || c == 12 || c == 13 || c == 32

/-- Python `str.strip()`: drop leading and trailing whitespace. -/
def strip (s : Str) : Str :=
  ((s.dropWhile isSpaceC).reverse.dropWhile isSpaceC).reverse

/-- Helper for `splitWS`: `acc` holds the (reversed) current token. -/
def splitWSAux : Str → Str → List Str
  | [], acc => if acc.isEmpty then [] else [acc.reverse]
  | c :: cs, acc =>
    if isSpaceC c then
      if acc.isEmpty then splitWSAux cs [] else acc.reverse :: splitWSAux cs []
    else splitWSAux cs (c :: acc)

/-- Python `str.split()` with no argument: split on runs of whitespace,
discarding empty tokens. -/
def splitWS (s : Str) : List Str := splitWSAux s []

/-- Python `needle in haystack` on strings: `needle` occurs as a contiguous
substring of `haystack` (the empty needle always matches). -/
def isSubstr (needle hay : Str) : Bool :=
  (List.range (hay.length + 1)).any (fun i => needle.isPrefixOf (hay.drop i))

/-- Python list slicing `xs[start:stop]` (step 1): negative bounds count
from the end, then both bounds are clipped into `[0, len]`. -/
def pySlice {α : Type} (xs : List α) (start stop : Int) : List α :=
  let n : Int := xs.length
  let s : Int := if start < 0 then max (n + start) 0 else min start n
  let e : Int := if stop < 0 then max (n + stop) 0 else min stop n
  (xs.drop s.toNat).take (e - s).toNat

/-- The `Message` pydantic model (`main.py` lines 25–30 and
`main_optimized.py` lines 45–50). -/
structure Message where
  id : Str
  user_id : Str
  user_name : Str
  timestamp : Str
  message : Str
deriving DecidableEq, Repr

/-- A default `Message`, used only to make positional access total in the
embedding (`self.messages[idx]` in Python). -/
def defaultMsg : Message := ⟨[], [], [], [], []⟩

/-- The `SearchResponse` model (`main.py` lines 33–39): the dict returned
by `search` / `search_fast` has exactly these keys. -/
structure SearchResponse where
  total : Int
  page : Int
  limit : Int
  total_pages : Int
  items : List Message
  query_time_ms : ℚ
deriving DecidableEq, Repr

/-- The pagination block shared verbatim by `MessageSearchEngine.search`
(`main.py` lines 145–163) and `OptimizedMessageSearchEngine.search_fast`
(`main_optimized.py` lines 212–230):
`total_pages = (total + limit - 1) // limit if limit > 0 else 1`,
`start_idx = (page - 1) * limit`, `end_idx = start_idx + limit`,
`page_items = filtered_messages[start_idx:end_idx]`.
`elapsed` is the measured query time (see module docstring). -/
def paginate (filtered_messages : List Message) (page limit : Int)
    (elapsed : ℚ) : SearchResponse :=
  let total : Int := filtered_messages.length
  let total_pages : Int :=
    if 0 < limit then Int.fdiv (total + limit - 1) limit else 1
  let start_idx : Int := (page - 1) * limit
  let end_idx : Int := start_idx + limit
  { total := total
    page := page
    limit := limit
    total_pages := total_pages
    items := pySlice filtered_messages start_idx end_idx
    query_time_ms := elapsed }

/-- The in-memory state of `MessageSearchEngine` (`main.py` lines 44–47). -/
structure MessageSearchEngine where
  messages : List Message
  loaded : Bool
deriving DecidableEq, Repr

namespace MessageSearchEngine

/-- The filtering step of `MessageSearchEngine.search` (`main.py` lines
133–143): empty / whitespace-only query returns everything, otherwise a
substring scan over lower-cased message bodies and user names with the
lower-cased, stripped query. -/
def filtered_messages (self : MessageSearchEngine) (query : Str) :
    List Message :=
  if query = [] || strip query = [] then self.messages
  else
    let query_lower := strip (lowerS query)
    self.messages.filter fun msg =>
      isSubstr query_lower (lowerS msg.message) ||
      isSubstr query_lower (lowerS msg.user_name)

/-- `MessageSearchEngine.search` (`main.py` lines 126–163). -/
def search (self : MessageSearchEngine) (query : Str) (page limit : Int)
    (elapsed : ℚ) : SearchResponse :=
  paginate (self.filtered_messages query) page limit elapsed

/-- `search` as a state transformer on the engine: the method body assigns
only local variables (`start_time`, `query_lower`, `filtered_messages`,
`total`, `total_pages`, `start_idx`, `end_idx`, `page_items`,
`query_time`), never a `self.` attribute, so the post-state is the
pre-state. -/
def searchRun (self : MessageSearchEngine) (query : Str) (page limit : Int)
    (elapsed : ℚ) : SearchResponse × MessageSearchEngine :=
  (self.search query page limit elapsed, self)

end MessageSearchEngine

/-- The two inverted indices of the optimized engine are Python dicts
`term → list of record positions`; modelled as insertion-ordered
association lists. -/
abbrev Dict := List (Str × List Nat)

/-- Dict lookup: `d[k]` when `k in d`, else `none`. -/
def dictGet? : Dict → Str → Option (List Nat)
  | [], _ => none
  | (k', l) :: rest, k => if k' = k then some l else dictGet? rest k

/-- Dict lookup defaulting to the empty position list (a key absent from
the index contributes no candidates). -/
def dictGetD (d : Dict) (k : Str) : List Nat := (dictGet? d k).getD []

/-- The index-update idiom of `_build_indices`
(`main_optimized.py` lines 166–168 and 172–174):
`if k not in d: d[k] = []` followed by `d[k].append(v)`. -/
def dictAppend : Dict → Str → Nat → Dict
  | [], k, v => [(k, [v])]
  | (k', l) :: rest, k, v =>
    if k' = k then (k', l ++ [v]) :: rest else (k', l) :: dictAppend rest k v

/-- The inner loop of `_build_indices` over the words of one message
(`main_optimized.py` lines 164–168): append position `idx` to each word's
list, once per occurrence of the word. -/
def indexWords (mi : Dict) (idx : Nat) (words : List Str) : Dict :=
  words.foldl (fun d word => dictAppend d word idx) mi

/-- One iteration of the `for idx, msg in enumerate(self.messages)` loop of
`_build_indices` (`main_optimized.py` lines 162–174): index the words of
`msg.message.lower().split()` and the single key `msg.user_name.lower()`
at position `idx`. -/
def buildStep (p : Dict × Dict) (e : Nat × Message) : Dict × Dict :=
  (indexWords p.1 e.1 (splitWS (lowerS e.2.message)),
   dictAppend p.2 (lowerS e.2.user_name) e.1)

/-- `OptimizedMessageSearchEngine._build_indices`
(`main_optimized.py` lines 150–174): one pass over the enumerated
messages, building the word index from `msg.message.lower().split()` and
the user index from `msg.user_name.lower()` as a single key. Returns
`(message_index, user_index)`. -/
def buildIndices (messages : List Message) : Dict × Dict :=
  messages.enum.foldl buildStep ([], [])

/-- The in-memory state of `OptimizedMessageSearchEngine`
(`main_optimized.py` lines 64–70). -/
structure OptimizedMessageSearchEngine where
  messages : List Message
  loaded : Bool
  message_index : Dict
  user_index : Dict
deriving DecidableEq, Repr

namespace OptimizedMessageSearchEngine

/-- The tail of `load_data` (`main_optimized.py` lines 144–146): store the
messages, build the indices, set `loaded`. -/
def ofMessages (messages : List Message) : OptimizedMessageSearchEngine :=
  { messages := messages
    loaded := true
    message_index := (buildIndices messages).1
    user_index := (buildIndices messages).2 }

/-- Sorted insertion without duplication: the building block used to model
Python's `sorted(set(...))`. -/
def insertSorted (x : Nat) : List Nat → List Nat
  | [] => [x]
  | y :: ys =>
    if x < y then x :: y :: ys
    else if x = y then y :: ys
    else y :: insertSorted x ys

/-- `sorted(set(l))`: the distinct elements of `l` in ascending order. -/
def sortedDedup (l : List Nat) : List Nat := l.foldr insertSorted []

/-- The substring fallback scan of `search_fast`
(`main_optimized.py` lines 203–207): positions of all records whose
lower-cased message or user name contains `query_lower`. -/
def scanPositions (messages : List Message) (query_lower : Str) :
    List Nat :=
  (messages.enum.filter fun e =>
    isSubstr query_lower (lowerS e.2.message) ||
    isSubstr query_lower (lowerS e.2.user_name)).map Prod.fst

/-- The matched-position computation of `search_fast`
(`main_optimized.py` lines 191–210) for a non-empty normalized query:
`matched_indices` starts as the set union of the exact-key hits in
`message_index` and `user_index`; only if that set is empty does the
substring fallback populate it; the result is `sorted(matched_indices)`. -/
def matched_indices (self : OptimizedMessageSearchEngine)
    (query_lower : Str) : List Nat :=
  let m1 := dictGetD self.message_index query_lower
  let m2 := dictGetD self.user_index query_lower
  if m1 ++ m2 = [] then sortedDedup (scanPositions self.messages query_lower)
  else sortedDedup (m1 ++ m2)

/-- The filtering step of `search_fast` (`main_optimized.py` lines
187–210): empty / whitespace-only query returns everything, otherwise the
matched positions are dereferenced in ascending order
(`[self.messages[idx] for idx in sorted(matched_indices)]`). -/
def filtered_messages_fast (self : OptimizedMessageSearchEngine)
    (query : Str) : List Message :=
  if query = [] || strip query = [] then self.messages
  else
    (self.matched_indices (strip (lowerS query))).map fun idx =>
      self.messages.getD idx defaultMsg

/-- `OptimizedMessageSearchEngine.search_fast`
(`main_optimized.py` lines 176–230). -/
def search_fast (self : OptimizedMessageSearchEngine) (query : Str)
    (page limit : Int) (elapsed : ℚ) : SearchResponse :=
  paginate (self.filtered_messages_fast query) page limit elapsed

/-- `search_fast` as a state transformer on the engine: the method body
assigns only local variables, never a `self.` attribute, so the
post-state is the pre-state. -/
def search_fastRun (self : OptimizedMessageSearchEngine) (query : Str)
    (page limit : Int) (elapsed : ℚ) :
    SearchResponse × OptimizedMessageSearchEngine :=
  (self.search_fast query page limit elapsed, self)

end OptimizedMessageSearchEngine

/-- The ground-truth match count of the specification: the number of
records whose lower-cased message or user name contains the lower-cased,
trimmed query as a substring. -/
def groundTruthCount (messages : List Message) (query : Str) : Nat :=
  messages.countP fun msg =>
    isSubstr (strip (lowerS query)) (lowerS msg.message) ||
    isSubstr (strip (lowerS query)) (lowerS msg.user_name)


/-! ## Lemmas about lower-casing and stripping -/

theorem lowerC_of_upper {c : Nat} (h : 65 ≤ c ∧ c ≤ 90) : lowerC c = c + 32 := by
  unfold lowerC; exact if_pos h

theorem lowerC_of_not_upper {c : Nat} (h : ¬(65 ≤ c ∧ c ≤ 90)) : lowerC c = c := by
  unfold lowerC; exact if_neg h

theorem lowerC_lowerC (c : Nat) : lowerC (lowerC c) = lowerC c := by
  by_cases h : 65 ≤ c ∧ c ≤ 90
  · rw [lowerC_of_upper h, lowerC_of_not_upper (by omega)]
  · rw [lowerC_of_not_upper h, lowerC_of_not_upper h]

theorem isSpaceC_false_of_ge {c : Nat} (h : 65 ≤ c) : isSpaceC c = false := by
  unfold isSpaceC
  simp only [Bool.or_eq_false_iff, beq_eq_false_iff_ne, ne_eq]
  omega

theorem isSpaceC_lowerC (c : Nat) : isSpaceC (lowerC c) = isSpaceC c := by
  by_cases h : 65 ≤ c ∧ c ≤ 90
  · rw [lowerC_of_upper h, isSpaceC_false_of_ge (by omega),
      isSpaceC_false_of_ge (by omega)]
  · rw [lowerC_of_not_upper h]

theorem isSpaceC_comp_lowerC : (isSpaceC ∘ lowerC) = isSpaceC :=
  funext fun c => isSpaceC_lowerC c

theorem lowerS_lowerS (s : Str) : lowerS (lowerS s) = lowerS s := by
  unfold lowerS
  rw [List.map_map]
  exact List.map_congr_left fun c _ => lowerC_lowerC c

theorem lowerS_eq_nil_iff (s : Str) : lowerS s = [] ↔ s = [] := by
  unfold lowerS
  exact List.map_eq_nil_iff

theorem strip_lowerS (s : Str) : strip (lowerS s) = lowerS (strip s) := by
  unfold strip lowerS
  rw [List.dropWhile_map, isSpaceC_comp_lowerC, ← List.map_reverse,
    List.dropWhile_map, isSpaceC_comp_lowerC, ← List.map_reverse]

theorem strip_lowerS_eq_nil_iff (s : Str) :
    strip (lowerS s) = [] ↔ strip s = [] := by
  rw [strip_lowerS, lowerS_eq_nil_iff]

theorem strip_nil : strip ([] : Str) = [] := rfl

/-! ## Lemmas about `sortedDedup` (the model of `sorted(set(...))`) -/

namespace OptimizedMessageSearchEngine

theorem mem_insertSorted (x y : Nat) (l : List Nat) :
    y ∈ insertSorted x l ↔ y = x ∨ y ∈ l := by
  induction l with
  | nil => simp [insertSorted]
  | cons z zs ih =>
    unfold insertSorted
    by_cases h1 : x < z
    · simp [h1]
    · by_cases h2 : x = z
      · subst h2
        simp [h1]
      · simp only [if_neg h1, if_neg h2, List.mem_cons, ih]
        tauto

theorem insertSorted_ne_nil (x : Nat) (l : List Nat) :
    insertSorted x l ≠ [] := by
  cases l with
  | nil => simp [insertSorted]
  | cons z zs =>
    unfold insertSorted
    by_cases h1 : x < z
    · simp [h1]
    · by_cases h2 : x = z <;> simp [h1, h2]

theorem pairwise_insertSorted (x : Nat) (l : List Nat)
    (h : l.Pairwise (· < ·)) :
    (insertSorted x l).Pairwise (· < ·) := by
  induction l with
  | nil => simp [insertSorted]
  | cons z zs ih =>
    rw [List.pairwise_cons] at h
    obtain ⟨hz, hzs⟩ := h
    unfold insertSorted
    by_cases h1 : x < z
    · rw [if_pos h1]
      rw [List.pairwise_cons]
      refine ⟨?_, List.pairwise_cons.mpr ⟨hz, hzs⟩⟩
      intro a ha
      rcases List.mem_cons.mp ha with h' | h'
      · omega
      · exact lt_trans h1 (hz a h')
    · rw [if_neg h1]
      by_cases h2 : x = z
      · rw [if_pos h2]
        exact List.pairwise_cons.mpr ⟨hz, hzs⟩
      · rw [if_neg h2]
        rw [List.pairwise_cons]
        refine ⟨?_, ih hzs⟩
        intro a ha
        rcases (mem_insertSorted x a zs).mp ha with h' | h'
        · omega
        · exact hz a h'

theorem sortedDedup_pairwise (l : List Nat) :
    (sortedDedup l).Pairwise (· < ·) := by
  induction l with
  | nil => simp [sortedDedup]
  | cons x xs ih => exact pairwise_insertSorted x _ ih

theorem mem_sortedDedup (y : Nat) (l : List Nat) :
    y ∈ sortedDedup l ↔ y ∈ l := by
  induction l with
  | nil => simp [sortedDedup]
  | cons x xs ih =>
    show y ∈ insertSorted x (sortedDedup xs) ↔ _
    rw [mem_insertSorted, ih]
    simp

theorem sortedDedup_eq_nil_iff (l : List Nat) :
    sortedDedup l = [] ↔ l = [] := by
  cases l with
  | nil => simp [sortedDedup]
  | cons x xs =>
    simp only [iff_false, List.cons_ne_nil]
    exact insertSorted_ne_nil x _

theorem insertSorted_of_forall_lt (x : Nat) (l : List Nat)
    (h : ∀ y ∈ l, x < y) : insertSorted x l = x :: l := by
  cases l with
  | nil => rfl
  | cons z zs =>
    unfold insertSorted
    rw [if_pos (h z (List.mem_cons_self z zs))]

theorem sortedDedup_eq_self (l : List Nat) (h : l.Pairwise (· < ·)) :
    sortedDedup l = l := by
  induction l with
  | nil => rfl
  | cons x xs ih =>
    rw [List.pairwise_cons] at h
    obtain ⟨hx, hxs⟩ := h
    show insertSorted x (sortedDedup xs) = x :: xs
    rw [ih hxs]
    exact insertSorted_of_forall_lt x xs hx

theorem sortedDedup_nodup (l : List Nat) : (sortedDedup l).Nodup :=
  (sortedDedup_pairwise l).imp fun h => Nat.ne_of_lt h

theorem length_sortedDedup_of_pairwise (l : List Nat)
    (h : l.Pairwise (· < ·)) : (sortedDedup l).length = l.length := by
  rw [sortedDedup_eq_self l h]

end OptimizedMessageSearchEngine

/-! ## Lemmas about enumerated filtering (the fallback scan) -/

theorem enumFrom_filter_fst_ge (p : Message → Bool) (l : List Message) :
    ∀ (n : Nat),
      ∀ m ∈ (((List.enumFrom n l).filter fun e => p e.2).map Prod.fst),
        n ≤ m := by
  induction l with
  | nil => intro n m hm; simp at hm
  | cons x xs ih =>
    intro n m hm
    rw [show List.enumFrom n (x :: xs) = (n, x) :: List.enumFrom (n + 1) xs
        from rfl, List.filter_cons] at hm
    by_cases hp : p x
    · simp only [hp, if_pos] at hm
      rw [List.map_cons, List.mem_cons] at hm
      rcases hm with h | h
      · omega
      · have := ih (n + 1) m h
        omega
    · simp only [hp] at hm
      have := ih (n + 1) m hm
      omega

theorem enumFrom_filter_fst_pairwise (p : Message → Bool) (l : List Message) :
    ∀ (n : Nat),
      ((((List.enumFrom n l).filter fun e => p e.2).map Prod.fst)).Pairwise
        (· < ·) := by
  induction l with
  | nil => intro n; simp
  | cons x xs ih =>
    intro n
    rw [show List.enumFrom n (x :: xs) = (n, x) :: List.enumFrom (n + 1) xs
        from rfl, List.filter_cons]
    by_cases hp : p x
    · simp only [hp, if_pos]
      rw [List.map_cons, List.pairwise_cons]
      refine ⟨?_, ih (n + 1)⟩
      intro m hm
      have := enumFrom_filter_fst_ge p xs (n + 1) m hm
      omega
    · simp only [hp]
      exact ih (n + 1)

theorem enumFrom_filter_length (p : Message → Bool) (l : List Message) :
    ∀ (n : Nat),
      (((List.enumFrom n l).filter fun e => p e.2)).length = l.countP p := by
  induction l with
  | nil => intro n; simp
  | cons x xs ih =>
    intro n
    rw [show List.enumFrom n (x :: xs) = (n, x) :: List.enumFrom (n + 1) xs
        from rfl, List.filter_cons, List.countP_cons]
    by_cases hp : p x
    · simp [hp, ih (n + 1)]
    · simp [hp, ih (n + 1)]

namespace OptimizedMessageSearchEngine

theorem scanPositions_pairwise (messages : List Message) (ql : Str) :
    (scanPositions messages ql).Pairwise (· < ·) :=
  enumFrom_filter_fst_pairwise
    (fun msg => isSubstr ql (lowerS msg.message) ||
      isSubstr ql (lowerS msg.user_name)) messages 0

theorem scanPositions_length (messages : List Message) (ql : Str) :
    (scanPositions messages ql).length =
      messages.countP fun msg =>
        isSubstr ql (lowerS msg.message) ||
        isSubstr ql (lowerS msg.user_name) := by
  unfold scanPositions
  rw [List.length_map]
  exact enumFrom_filter_length
    (fun msg => isSubstr ql (lowerS msg.message) ||
      isSubstr ql (lowerS msg.user_name)) messages 0

end OptimizedMessageSearchEngine

/-! ## Lemmas about the inverted-index construction -/

theorem dictGetD_nil (k : Str) : dictGetD [] k = [] := rfl

theorem dictGetD_dictAppend (d : Dict) (k : Str) (v : Nat) (k' : Str) :
    dictGetD (dictAppend d k v) k' =
      dictGetD d k' ++ if k' = k then [v] else [] := by
  induction d with
  | nil =>
    show dictGetD [(k, [v])] k' = [] ++ _
    unfold dictGetD dictGet?
    by_cases h : k = k'
    · subst h
      rw [if_pos rfl, if_pos rfl]
      rfl
    · rw [if_neg h, if_neg (fun hh => h hh.symm)]
      rfl
  | cons kv rest ih =>
    obtain ⟨k₀, l₀⟩ := kv
    show dictGetD (if k₀ = k then (k₀, l₀ ++ [v]) :: rest
      else (k₀, l₀) :: dictAppend rest k v) k' = _
    by_cases h0 : k₀ = k
    · rw [if_pos h0]
      subst h0
      unfold dictGetD dictGet?
      by_cases h1 : k₀ = k'
      · subst h1
        rw [if_pos rfl, if_pos rfl, if_pos rfl]
        rfl
      · rw [if_neg h1, if_neg h1, if_neg (fun hh => h1 hh.symm),
          List.append_nil]
    · rw [if_neg h0]
      unfold dictGetD dictGet?
      by_cases h1 : k₀ = k'
      · subst h1
        rw [if_pos rfl, if_pos rfl, if_neg h0, List.append_nil]
      · rw [if_neg h1, if_neg h1]
        exact ih

theorem dictGetD_indexWords (ws : List Str) :
    ∀ (mi : Dict) (i : Nat) (k : Str),
      dictGetD (indexWords mi i ws) k =
        dictGetD mi k ++ List.replicate (ws.count k) i := by
  induction ws with
  | nil => intro mi i k; simp [indexWords]
  | cons w ws ih =>
    intro mi i k
    show dictGetD (indexWords (dictAppend mi w i) i ws) k = _
    rw [ih (dictAppend mi w i) i k, dictGetD_dictAppend,
      List.count_cons]
    by_cases h : k = w
    · subst h
      simp [List.append_assoc, List.replicate_succ]
    · have h' : ¬w = k := fun hh => h hh.symm
      simp [h, h']

theorem buildStep_fold_fst (msgs : List Message) :
    ∀ (n : Nat) (mi ui : Dict) (k : Str),
      dictGetD (((List.enumFrom n msgs).foldl buildStep (mi, ui)).1) k =
        dictGetD mi k ++
          (List.enumFrom n msgs).flatMap (fun e =>
            List.replicate ((splitWS (lowerS e.2.message)).count k) e.1) := by
  induction msgs with
  | nil => intro n mi ui k; simp
  | cons m ms ih =>
    intro n mi ui k
    rw [show List.enumFrom n (m :: ms) = (n, m) :: List.enumFrom (n + 1) ms
        from rfl]
    rw [List.foldl_cons, List.flatMap_cons]
    show dictGetD ((List.enumFrom (n + 1) ms).foldl buildStep
      (indexWords mi n (splitWS (lowerS m.message)),
        dictAppend ui (lowerS m.user_name) n)).1 k = _
    rw [ih (n + 1) _ _ k, dictGetD_indexWords, List.append_assoc]

/-- The position list that `_build_indices` produces for a word `k`:
position `i` occurs once for every occurrence of `k` among the tokens of
`messages[i].message.lower().split()`. -/
theorem buildIndices_message_index_spec (messages : List Message) (k : Str) :
    dictGetD (buildIndices messages).1 k =
      messages.enum.flatMap (fun e =>
        List.replicate ((splitWS (lowerS e.2.message)).count k) e.1) := by
  unfold buildIndices
  rw [show messages.enum = List.enumFrom 0 messages from rfl,
    buildStep_fold_fst messages 0 [] [] k]
  rfl

/-! ## Lemmas about pagination -/

theorem paginate_total (xs : List Message) (page limit : Int) (t : ℚ) :
    (paginate xs page limit t).total = (xs.length : Int) := rfl

theorem paginate_page (xs : List Message) (page limit : Int) (t : ℚ) :
    (paginate xs page limit t).page = page := rfl

theorem paginate_limit (xs : List Message) (page limit : Int) (t : ℚ) :
    (paginate xs page limit t).limit = limit := rfl

theorem paginate_total_pages (xs : List Message) (page limit : Int) (t : ℚ) :
    (paginate xs page limit t).total_pages =
      if 0 < limit then Int.fdiv ((xs.length : Int) + limit - 1) limit
      else 1 := rfl

theorem paginate_items (xs : List Message) (page limit : Int) (t : ℚ) :
    (paginate xs page limit t).items =
      pySlice xs ((page - 1) * limit) ((page - 1) * limit + limit) := rfl

theorem paginate_query_time (xs : List Message) (page limit : Int) (t : ℚ) :
    (paginate xs page limit t).query_time_ms = t := rfl

theorem pySlice_eq_drop_take {α : Type} (xs : List α) (a b : Int)
    (ha : 0 ≤ a) (hb : 0 ≤ b) :
    pySlice xs a (a + b) = (xs.drop a.toNat).take b.toNat := by
  show (xs.drop (if a < 0 then max ((xs.length : Int) + a) 0
      else min a (xs.length : Int)).toNat).take
      ((if a + b < 0 then max ((xs.length : Int) + (a + b)) 0
        else min (a + b) (xs.length : Int)) -
       (if a < 0 then max ((xs.length : Int) + a) 0
        else min a (xs.length : Int))).toNat = _
  rw [if_neg (show ¬a + b < 0 by omega), if_neg (show ¬a < 0 by omega)]
  by_cases hle : a ≤ (xs.length : Int)
  · rw [show min a (xs.length : Int) = a from min_eq_left hle]
    by_cases h2 : a + b ≤ (xs.length : Int)
    · rw [show min (a + b) (xs.length : Int) = a + b from min_eq_left h2]
      congr 1
      omega
    · rw [show min (a + b) (xs.length : Int) = (xs.length : Int) from
        min_eq_right (by omega)]
      rw [List.take_of_length_le (by rw [List.length_drop]; omega),
        List.take_of_length_le (by rw [List.length_drop]; omega)]
  · rw [show min a (xs.length : Int) = (xs.length : Int) from
      min_eq_right (by omega)]
    rw [show ((xs.length : Int)).toNat = xs.length from Int.toNat_natCast _,
      List.drop_length,
      List.drop_eq_nil_of_le (by omega : xs.length ≤ a.toNat)]
    simp

theorem pySlice_nil_of_start_ge {α : Type} (xs : List α) (start stop : Int)
    (h0 : 0 ≤ start) (h : (xs.length : Int) ≤ start) :
    pySlice xs start stop = [] := by
  show (xs.drop (if start < 0 then max ((xs.length : Int) + start) 0
      else min start (xs.length : Int)).toNat).take
      ((if stop < 0 then max ((xs.length : Int) + stop) 0
        else min stop (xs.length : Int)) -
       (if start < 0 then max ((xs.length : Int) + start) 0
        else min start (xs.length : Int))).toNat = _
  have hs : (if start < 0 then max ((xs.length : Int) + start) 0
      else min start (xs.length : Int)) = (xs.length : Int) := by
    rw [if_neg (by omega)]
    exact min_eq_right h
  rw [hs, Int.toNat_natCast, List.drop_length]
  simp

theorem range_flatMap_take_drop (l : Nat) (tp : Nat) (xs : List Message) :
    (List.range tp).flatMap (fun k => (xs.drop (k * l)).take l) =
      xs.take (tp * l) := by
  induction tp with
  | zero => simp
  | succ t ih =>
    rw [List.range_succ, List.flatMap_append, ih, List.flatMap_cons,
      List.flatMap_nil, List.append_nil, Nat.succ_mul, List.take_add]

theorem ceilDiv_mul_ge (n l : Nat) (hl : 1 ≤ l) :
    n ≤ ((n + l - 1) / l) * l := by
  have h1 := Nat.div_add_mod (n + l - 1) l
  have h2 : (n + l - 1) % l < l := Nat.mod_lt _ (by omega)
  rw [Nat.mul_comm]
  omega

theorem totalPages_nat (N l : Nat) (hl : 1 ≤ l) :
    (if 0 < (l : Int) then Int.fdiv ((N : Int) + (l : Int) - 1) (l : Int)
      else 1) = (((N + l - 1) / l : Nat) : Int) := by
  rw [if_pos (by omega), Int.fdiv_eq_ediv _ (by omega),
    show ((N : Int) + (l : Int) - 1) = ((N + l - 1 : Nat) : Int) from by omega]
  rfl

theorem paginate_pages_join (xs : List Message) (l : Nat) (hl : 1 ≤ l)
    (t : ℚ) :
    (List.range ((paginate xs 1 (l : Int) t).total_pages).toNat).flatMap
      (fun k => (paginate xs ((k : Int) + 1) (l : Int) t).items) = xs := by
  have htp : (paginate xs 1 (l : Int) t).total_pages =
      (((xs.length + l - 1) / l : Nat) : Int) := by
    rw [paginate_total_pages]
    exact totalPages_nat xs.length l hl
  have hitems : (fun k : Nat =>
        (paginate xs ((k : Int) + 1) (l : Int) t).items)
      = fun k : Nat => (xs.drop (k * l)).take l := by
    funext k
    rw [paginate_items,
      show ((k : Int) + 1 - 1) * (l : Int) = ((k * l : Nat) : Int) from by
        push_cast; ring,
      pySlice_eq_drop_take xs _ _ (by positivity) (by positivity),
      Int.toNat_natCast, Int.toNat_natCast]
  rw [htp, hitems, Int.toNat_natCast, range_flatMap_take_drop]
  exact List.take_of_length_le (ceilDiv_mul_ge xs.length l hl)

theorem paginate_beyond_last_page (xs : List Message) (page limit : Int)
    (t : ℚ) (hl : 1 ≤ limit)
    (hp : (paginate xs page limit t).total_pages < page) :
    (paginate xs page limit t).items = [] := by
  rw [paginate_total_pages, if_pos (by omega),
    Int.fdiv_eq_ediv _ (by omega)] at hp
  have h1 := Int.ediv_add_emod ((xs.length : Int) + limit - 1) limit
  have h2 := Int.emod_nonneg ((xs.length : Int) + limit - 1)
    (show limit ≠ 0 by omega)
  have h3 := Int.emod_lt_of_pos ((xs.length : Int) + limit - 1)
    (show 0 < limit by omega)
  have hz0 : 0 ≤ ((xs.length : Int) + limit - 1) / limit :=
    Int.ediv_nonneg (by omega) (by omega)
  have hNz : (xs.length : Int) ≤
      limit * (((xs.length : Int) + limit - 1) / limit) := by omega
  have hstart : (xs.length : Int) ≤ (page - 1) * limit := by
    calc (xs.length : Int)
        ≤ limit * (((xs.length : Int) + limit - 1) / limit) := hNz
      _ ≤ limit * (page - 1) := by
          apply mul_le_mul_of_nonneg_left (by omega) (by omega)
      _ = (page - 1) * limit := mul_comm _ _
  rw [paginate_items]
  exact pySlice_nil_of_start_ge xs _ _
    (by nlinarith [hz0, hNz]) hstart

theorem totalPages_eq_ceil (xs : List Message) (page limit : Int) (t : ℚ)
    (hl : 1 ≤ limit) :
    (paginate xs page limit t).total_pages =
      ⌈((xs.length : ℚ)) / (limit : ℚ)⌉ := by
  rw [paginate_total_pages, if_pos (by omega),
    Int.fdiv_eq_ediv _ (by omega)]
  have h1 := Int.ediv_add_emod ((xs.length : Int) + limit - 1) limit
  have h2 := Int.emod_nonneg ((xs.length : Int) + limit - 1)
    (show limit ≠ 0 by omega)
  have h3 := Int.emod_lt_of_pos ((xs.length : Int) + limit - 1)
    (show 0 < limit by omega)
  have hb : (0 : ℚ) < (limit : ℚ) := by
    exact_mod_cast (show (0 : Int) < limit by omega)
  symm
  rw [Int.ceil_eq_iff]
  constructor
  · rw [lt_div_iff₀ hb]
    have hInt : limit * (((xs.length : Int) + limit - 1) / limit) - limit <
        (xs.length : Int) := by omega
    have hq : ((limit * (((xs.length : Int) + limit - 1) / limit) - limit :
        Int) : ℚ) < ((xs.length : Int) : ℚ) := by exact_mod_cast hInt
    push_cast at hq ⊢
    linarith [hq]
  · rw [div_le_iff₀ hb]
    have hInt : (xs.length : Int) ≤
        limit * (((xs.length : Int) + limit - 1) / limit) := by omega
    have hq : ((xs.length : Int) : ℚ) ≤
        ((limit * (((xs.length : Int) + limit - 1) / limit) : Int) : ℚ) := by
      exact_mod_cast hInt
    push_cast at hq ⊢
    linarith [hq]

/-! ## Branch-condition helpers -/

theorem searchCond_false_of_strip_ne (q : Str) (hq : strip q ≠ []) :
    (q = [] || strip q = []) = false := by
  have hq0 : q ≠ [] := fun h => hq (by rw [h]; rfl)
  simp [hq, hq0]

theorem MessageSearchEngine.filtered_messages_of_ne
    (e : MessageSearchEngine) (q : Str) (hq : strip q ≠ []) :
    e.filtered_messages q = e.messages.filter fun msg =>
      isSubstr (strip (lowerS q)) (lowerS msg.message) ||
      isSubstr (strip (lowerS q)) (lowerS msg.user_name) := by
  unfold MessageSearchEngine.filtered_messages
  rw [if_neg (by simp [searchCond_false_of_strip_ne q hq])]

theorem MessageSearchEngine.filtered_messages_of_empty
    (e : MessageSearchEngine) (q : Str) (hq : strip q = []) :
    e.filtered_messages q = e.messages := by
  unfold MessageSearchEngine.filtered_messages
  rw [if_pos (by simp [hq])]

namespace OptimizedMessageSearchEngine

theorem filtered_messages_fast_of_ne (e : OptimizedMessageSearchEngine)
    (q : Str) (hq : strip q ≠ []) :
    e.filtered_messages_fast q =
      (e.matched_indices (strip (lowerS q))).map fun idx =>
        e.messages.getD idx defaultMsg := by
  unfold filtered_messages_fast
  rw [if_neg (by simp [searchCond_false_of_strip_ne q hq])]

theorem filtered_messages_fast_of_empty (e : OptimizedMessageSearchEngine)
    (q : Str) (hq : strip q = []) :
    e.filtered_messages_fast q = e.messages := by
  unfold filtered_messages_fast
  rw [if_pos (by simp [hq])]

theorem matched_indices_of_empty (e : OptimizedMessageSearchEngine)
    (ql : Str)
    (h : dictGetD e.message_index ql ++ dictGetD e.user_index ql = []) :
    e.matched_indices ql = sortedDedup (scanPositions e.messages ql) := by
  show (if dictGetD e.message_index ql ++ dictGetD e.user_index ql = []
    then sortedDedup (scanPositions e.messages ql)
    else sortedDedup (dictGetD e.message_index ql ++
      dictGetD e.user_index ql)) = _
  rw [if_pos h]

theorem matched_indices_of_nonempty (e : OptimizedMessageSearchEngine)
    (ql : Str)
    (h : dictGetD e.message_index ql ++ dictGetD e.user_index ql ≠ []) :
    e.matched_indices ql = sortedDedup
      (dictGetD e.message_index ql ++ dictGetD e.user_index ql) := by
  show (if dictGetD e.message_index ql ++ dictGetD e.user_index ql = []
    then sortedDedup (scanPositions e.messages ql)
    else sortedDedup (dictGetD e.message_index ql ++
      dictGetD e.user_index ql)) = _
  rw [if_neg h]

end OptimizedMessageSearchEngine

/-! ## Concrete data for counterexamples and witnesses

Code points: `"paris" = [112,97,114,105,115]`,
`"parisian" = [112,97,114,105,115,105,97,110]`,
`"hello hello" = [104,101,108,108,111,32,104,101,108,108,111]`. -/

/-- A record whose message is `"paris"` (user `"alice"`). -/
def exParis : Message :=
  ⟨[49], [117, 49], [97, 108, 105, 99, 101], [116],
    [112, 97, 114, 105, 115]⟩

/-- A record whose message is `"parisian"` (user `"bob"`). -/
def exParisian : Message :=
  ⟨[50], [117, 50], [98, 111, 98], [116],
    [112, 97, 114, 105, 115, 105, 97, 110]⟩

/-- A record whose message is `"hello hello"` (user `"carol"`). -/
def exHello : Message :=
  ⟨[51], [117, 51], [99, 97, 114, 111, 108], [116],
    [104, 101, 108, 108, 111, 32, 104, 101, 108, 108, 111]⟩

/-- The query `"paris"`. -/
def qParis : Str := [112, 97, 114, 105, 115]

/-- The query `"pari"`. -/
def qPari : Str := [112, 97, 114, 105]

/-! ## Claim C1 -/

/-- C1 counterexample: on the store `[exParis, exParisian]` and the
non-empty query `"paris"`, `search_fast` returns `total = 1` (the exact
word index hits only the record whose message is the standalone word
`"paris"`), while the ground-truth substring count is `2` (`"paris"` is
also a substring of `"parisian"`), so the claim that `search_fast.total`
always equals the ground-truth count is false. -/
theorem C1_counterexample :
    strip qParis ≠ [] ∧
    ((OptimizedMessageSearchEngine.ofMessages
        [exParis, exParisian]).search_fast qParis 1 10 0).total = 1 ∧
    groundTruthCount [exParis, exParisian] qParis = 2 ∧
    ((OptimizedMessageSearchEngine.ofMessages
        [exParis, exParisian]).search_fast qParis 1 10 0).total ≠
      (groundTruthCount [exParis, exParisian] qParis : Int) := by
  refine ⟨by decide, by decide, by decide, by decide⟩

/-- C1 (amended): for every non-empty (after trimming) query,
`MessageSearchEngine.search` returns `total` equal to the ground-truth
substring count; `OptimizedMessageSearchEngine.search_fast` returns the
ground-truth count whenever the exact-term candidate set for the
normalized query is empty (i.e. whenever the substring fallback runs). -/
theorem C1_totals_ground_truth (e : MessageSearchEngine)
    (e2 : OptimizedMessageSearchEngine) (q : Str) (page limit : Int)
    (t : ℚ) (hq : strip q ≠ []) :
    (e.search q page limit t).total =
      (groundTruthCount e.messages q : Int) ∧
    (dictGetD e2.message_index (strip (lowerS q)) ++
        dictGetD e2.user_index (strip (lowerS q)) = [] →
      (e2.search_fast q page limit t).total =
        (groundTruthCount e2.messages q : Int)) := by
  constructor
  · show (paginate (e.filtered_messages q) page limit t).total = _
    rw [paginate_total, e.filtered_messages_of_ne q hq]
    unfold groundTruthCount
    rw [List.countP_eq_length_filter]
  · intro hempty
    show (paginate (e2.filtered_messages_fast q) page limit t).total = _
    rw [paginate_total, e2.filtered_messages_fast_of_ne q hq,
      List.length_map, e2.matched_indices_of_empty _ hempty,
      OptimizedMessageSearchEngine.sortedDedup_eq_self _
        (OptimizedMessageSearchEngine.scanPositions_pairwise _ _),
      OptimizedMessageSearchEngine.scanPositions_length]
    unfold groundTruthCount
    rfl

/-- Witness for C1 (amended): the store `[exParis]` with query `"pari"`;
the partial-word query misses the word index, the fallback runs, and both
engines report the ground-truth count `1`. -/
theorem C1_totals_ground_truth_witness :
    strip qPari ≠ [] ∧
    dictGetD (OptimizedMessageSearchEngine.ofMessages
        [exParis]).message_index (strip (lowerS qPari)) ++
      dictGetD (OptimizedMessageSearchEngine.ofMessages
        [exParis]).user_index (strip (lowerS qPari)) = [] ∧
    ((MessageSearchEngine.mk [exParis] true).search qPari 1 10 0).total =
      (groundTruthCount [exParis] qPari : Int) ∧
    ((OptimizedMessageSearchEngine.ofMessages
        [exParis]).search_fast qPari 1 10 0).total =
      (groundTruthCount [exParis] qPari : Int) := by
  refine ⟨by decide, by decide, ?_, ?_⟩
  · exact (C1_totals_ground_truth ⟨[exParis], true⟩
      (OptimizedMessageSearchEngine.ofMessages [exParis]) qPari 1 10 0
      (by decide)).1
  · exact (C1_totals_ground_truth ⟨[exParis], true⟩
      (OptimizedMessageSearchEngine.ofMessages [exParis]) qPari 1 10 0
      (by decide)).2 (by decide)

/-! ## Claim C2 -/

/-- C2: in `search_fast`, for a non-empty normalized query: when the union
of the body-index list and the user-index list for the exact key is
non-empty, the match set is exactly that union — deduplicated, in
ascending position order — and the fallback scan is not consulted; the
full scan is used only when the exact-term candidate set is empty; and
the returned records are the matched positions dereferenced in order. -/
theorem C2_exact_term_path (e2 : OptimizedMessageSearchEngine) (q : Str)
    (hq : strip q ≠ []) :
    (dictGetD e2.message_index (strip (lowerS q)) ++
        dictGetD e2.user_index (strip (lowerS q)) ≠ [] →
      e2.matched_indices (strip (lowerS q)) =
        OptimizedMessageSearchEngine.sortedDedup
          (dictGetD e2.message_index (strip (lowerS q)) ++
            dictGetD e2.user_index (strip (lowerS q))) ∧
      (∀ i, i ∈ e2.matched_indices (strip (lowerS q)) ↔
        i ∈ dictGetD e2.message_index (strip (lowerS q)) ∨
        i ∈ dictGetD e2.user_index (strip (lowerS q))) ∧
      (e2.matched_indices (strip (lowerS q))).Pairwise (· < ·) ∧
      (e2.matched_indices (strip (lowerS q))).Nodup) ∧
    (dictGetD e2.message_index (strip (lowerS q)) ++
        dictGetD e2.user_index (strip (lowerS q)) = [] →
      e2.matched_indices (strip (lowerS q)) =
        OptimizedMessageSearchEngine.sortedDedup
          (OptimizedMessageSearchEngine.scanPositions e2.messages
            (strip (lowerS q)))) ∧
    e2.filtered_messages_fast q =
      (e2.matched_indices (strip (lowerS q))).map fun idx =>
        e2.messages.getD idx defaultMsg := by
  refine ⟨?_, ?_, e2.filtered_messages_fast_of_ne q hq⟩
  · intro hne
    have heq := e2.matched_indices_of_nonempty _ hne
    refine ⟨heq, ?_, ?_, ?_⟩
    · intro i
      rw [heq, OptimizedMessageSearchEngine.mem_sortedDedup,
        List.mem_append]
    · rw [heq]
      exact OptimizedMessageSearchEngine.sortedDedup_pairwise _
    · rw [heq]
      exact OptimizedMessageSearchEngine.sortedDedup_nodup _
  · intro hempty
    exact e2.matched_indices_of_empty _ hempty

/-- Witness for C2: on the store `[exParis, exParisian]` with query
`"paris"`, the exact-term candidate set is `[0]` and the match set is
`[0]` (the fallback is not consulted, which would have added position 1). -/
theorem C2_exact_term_path_witness :
    (OptimizedMessageSearchEngine.ofMessages
        [exParis, exParisian]).matched_indices (strip (lowerS qParis)) =
      [0] := by
  have h := C2_exact_term_path
    (OptimizedMessageSearchEngine.ofMessages [exParis, exParisian])
    qParis (by decide)
  rw [(h.1 (by decide)).1]
  decide

/-! ## Claim C3 -/

/-- C3 counterexample: for the single message `"hello hello"`,
`_build_indices` appends position 0 once per occurrence of the token
`"hello"`, producing the position list `[0, 0]`, which is not
duplicate-free — the claimed append-once-per-record behaviour does not
hold. -/
theorem C3_counterexample :
    dictGetD (buildIndices [exHello]).1 [104, 101, 108, 108, 111] =
      [0, 0] ∧
    ¬ (dictGetD (buildIndices [exHello]).1
      [104, 101, 108, 108, 111]).Nodup := by
  refine ⟨by decide, by decide⟩

/-- C3 (amended): `_build_indices` appends a record's position once per
token occurrence, not once per record: the position list stored for a
word `k` lists each position `i` with multiplicity equal to the number of
occurrences of `k` among the tokens of `messages[i].message.lower()`, so
a token occurring twice in one message contributes its position twice
(duplicates are eliminated later, at lookup time, by the set semantics of
`search_fast`). -/
theorem C3_message_index_multiplicity (messages : List Message) (k : Str) :
    dictGetD (buildIndices messages).1 k =
      messages.enum.flatMap (fun e =>
        List.replicate ((splitWS (lowerS e.2.message)).count k) e.1) :=
  buildIndices_message_index_spec messages k

/-! ## Claim C4 -/

/-- C4: for limit ≥ 1, concatenating the `items` lists over
`page = 1 .. total_pages` reproduces the full match set of the query —
every matched record exactly once, in match-set order, nothing repeated
or omitted — for both engines. -/
theorem C4_pagination_exhaustive (e : MessageSearchEngine)
    (e2 : OptimizedMessageSearchEngine) (q : Str) (limit : Int) (t : ℚ)
    (hl : 1 ≤ limit) :
    (List.range ((e.search q 1 limit t).total_pages).toNat).flatMap
        (fun k => (e.search q ((k : Int) + 1) limit t).items) =
      e.filtered_messages q ∧
    (List.range ((e2.search_fast q 1 limit t).total_pages).toNat).flatMap
        (fun k => (e2.search_fast q ((k : Int) + 1) limit t).items) =
      e2.filtered_messages_fast q := by
  obtain ⟨l, rfl⟩ : ∃ l : Nat, limit = (l : Int) := ⟨limit.toNat, by omega⟩
  have hl' : 1 ≤ l := by exact_mod_cast hl
  exact ⟨paginate_pages_join (e.filtered_messages q) l hl' t,
    paginate_pages_join (e2.filtered_messages_fast q) l hl' t⟩

/-- Witness for C4: store of three records, query `"paris"`, limit 2. -/
theorem C4_pagination_exhaustive_witness :
    (List.range (((MessageSearchEngine.mk [exParis, exParisian, exHello]
        true).search qParis 1 2 0).total_pages).toNat).flatMap
      (fun k => ((MessageSearchEngine.mk [exParis, exParisian, exHello]
        true).search qParis ((k : Int) + 1) 2 0).items) =
      (MessageSearchEngine.mk [exParis, exParisian, exHello]
        true).filtered_messages qParis :=
  (C4_pagination_exhaustive
    ⟨[exParis, exParisian, exHello], true⟩
    (OptimizedMessageSearchEngine.ofMessages [exParis, exParisian, exHello])
    qParis 2 0 (by decide)).1

/-! ## Claim C5 -/

/-- C5: an empty or whitespace-only query takes the match-all branch
(before any indexed lookup): the filtered list is the entire store and
`total` is the store size, in both engines. -/
theorem C5_empty_query_matches_all (e : MessageSearchEngine)
    (e2 : OptimizedMessageSearchEngine) (q : Str) (page limit : Int)
    (t : ℚ) (hq : strip q = []) :
    e.filtered_messages q = e.messages ∧
    e2.filtered_messages_fast q = e2.messages ∧
    (e.search q page limit t).total = (e.messages.length : Int) ∧
    (e2.search_fast q page limit t).total = (e2.messages.length : Int) := by
  refine ⟨e.filtered_messages_of_empty q hq,
    e2.filtered_messages_fast_of_empty q hq, ?_, ?_⟩
  · show (paginate (e.filtered_messages q) page limit t).total = _
    rw [paginate_total, e.filtered_messages_of_empty q hq]
  · show (paginate (e2.filtered_messages_fast q) page limit t).total = _
    rw [paginate_total, e2.filtered_messages_fast_of_empty q hq]

/-- Witness for C5: whitespace query `" "` on a two-record store. -/
theorem C5_empty_query_matches_all_witness :
    strip [32] = [] ∧
    ((MessageSearchEngine.mk [exParis, exParisian] true).search
        [32] 1 10 0).total = ([exParis, exParisian].length : Int) ∧
    ((OptimizedMessageSearchEngine.ofMessages
        [exParis, exParisian]).search_fast [32] 1 10 0).total =
      ([exParis, exParisian].length : Int) := by
  have h := C5_empty_query_matches_all
    ⟨[exParis, exParisian], true⟩
    (OptimizedMessageSearchEngine.ofMessages [exParis, exParisian])
    [32] 1 10 0 (by decide)
  exact ⟨by decide, h.2.2.1, h.2.2.2⟩

/-! ## Claim C6 -/

/-- C6: `total_pages` equals `⌈total / limit⌉` whenever `limit ≥ 1`
(`0 < limit`), and equals `1` — with no division performed — whenever
`limit ≤ 0`, in both engines. -/
theorem C6_total_pages_formula (e : MessageSearchEngine)
    (e2 : OptimizedMessageSearchEngine) (q : Str) (page limit : Int)
    (t : ℚ) :
    (e.search q page limit t).total_pages =
      (if 0 < limit then
        ⌈((e.search q page limit t).total : ℚ) / (limit : ℚ)⌉
      else 1) ∧
    (e2.search_fast q page limit t).total_pages =
      (if 0 < limit then
        ⌈((e2.search_fast q page limit t).total : ℚ) / (limit : ℚ)⌉
      else 1) := by
  by_cases h : 0 < limit
  · rw [if_pos h, if_pos h]
    constructor
    · show (paginate (e.filtered_messages q) page limit t).total_pages =
        ⌈((paginate (e.filtered_messages q) page limit t).total : ℚ) /
          (limit : ℚ)⌉
      rw [paginate_total,
        show ((((e.filtered_messages q).length : Int) : ℚ)) =
          (((e.filtered_messages q).length : Nat) : ℚ) from by push_cast; ring]
      exact totalPages_eq_ceil _ page limit t (by omega)
    · show (paginate (e2.filtered_messages_fast q) page limit t).total_pages
        = ⌈((paginate (e2.filtered_messages_fast q) page limit t).total :
            ℚ) / (limit : ℚ)⌉
      rw [paginate_total,
        show ((((e2.filtered_messages_fast q).length : Int) : ℚ)) =
          (((e2.filtered_messages_fast q).length : Nat) : ℚ) from by
            push_cast; ring]
      exact totalPages_eq_ceil _ page limit t (by omega)
  · rw [if_neg h, if_neg h]
    constructor
    · show (paginate (e.filtered_messages q) page limit t).total_pages = 1
      rw [paginate_total_pages, if_neg h]
    · show (paginate (e2.filtered_messages_fast q) page limit t).total_pages
        = 1
      rw [paginate_total_pages, if_neg h]

/-! ## Claim C7 -/

/-- C7: for limit ≥ 1, a page beyond `total_pages` returns successfully
with empty `items` and the same `total` as page 1, in both engines. -/
theorem C7_out_of_range_page (e : MessageSearchEngine)
    (e2 : OptimizedMessageSearchEngine) (q : Str) (page limit : Int)
    (t : ℚ) (hl : 1 ≤ limit) :
    ((e.search q page limit t).total_pages < page →
      (e.search q page limit t).items = [] ∧
      (e.search q page limit t).total = (e.search q 1 limit t).total) ∧
    ((e2.search_fast q page limit t).total_pages < page →
      (e2.search_fast q page limit t).items = [] ∧
      (e2.search_fast q page limit t).total =
        (e2.search_fast q 1 limit t).total) := by
  constructor
  · intro hp
    exact ⟨paginate_beyond_last_page _ page limit t hl hp, rfl⟩
  · intro hp
    exact ⟨paginate_beyond_last_page _ page limit t hl hp, rfl⟩

/-- Witness for C7: two-record store, limit 10, page 5 (total_pages is 1). -/
theorem C7_out_of_range_page_witness :
    (1 : Int) ≤ 10 ∧
    ((MessageSearchEngine.mk [exParis, exParisian] true).search
      qParis 5 10 0).total_pages < 5 ∧
    ((MessageSearchEngine.mk [exParis, exParisian] true).search
      qParis 5 10 0).items = [] ∧
    ((OptimizedMessageSearchEngine.ofMessages
      [exParis, exParisian]).search_fast qParis 5 10 0).items = [] := by
  have h := C7_out_of_range_page ⟨[exParis, exParisian], true⟩
    (OptimizedMessageSearchEngine.ofMessages [exParis, exParisian])
    qParis 5 10 0 (by decide)
  exact ⟨by decide, by decide, (h.1 (by decide)).1, (h.2 (by decide)).1⟩

/-! ## Claim C8 -/

/-- C8: search is case-insensitive: two queries with the same
lower-casing (e.g. `"Paris"`, `"paris"`, `"PARIS"`) produce identical
responses (same `total`, same `items` in the same order), in both
engines. -/
theorem C8_case_insensitive (e : MessageSearchEngine)
    (e2 : OptimizedMessageSearchEngine) (q q' : Str) (page limit : Int)
    (t : ℚ) (h : lowerS q = lowerS q') :
    e.search q page limit t = e.search q' page limit t ∧
    e2.search_fast q page limit t = e2.search_fast q' page limit t := by
  have hql : strip (lowerS q) = strip (lowerS q') := by rw [h]
  have hstrip : strip q = [] ↔ strip q' = [] := by
    rw [← strip_lowerS_eq_nil_iff q, ← strip_lowerS_eq_nil_iff q', hql]
  constructor
  · show paginate (e.filtered_messages q) page limit t =
      paginate (e.filtered_messages q') page limit t
    congr 1
    by_cases hq : strip q = []
    · rw [e.filtered_messages_of_empty q hq,
        e.filtered_messages_of_empty q' (hstrip.mp hq)]
    · rw [e.filtered_messages_of_ne q hq,
        e.filtered_messages_of_ne q' (fun hh => hq (hstrip.mpr hh)), hql]
  · show paginate (e2.filtered_messages_fast q) page limit t =
      paginate (e2.filtered_messages_fast q') page limit t
    congr 1
    by_cases hq : strip q = []
    · rw [e2.filtered_messages_fast_of_empty q hq,
        e2.filtered_messages_fast_of_empty q' (hstrip.mp hq)]
    · rw [e2.filtered_messages_fast_of_ne q hq,
        e2.filtered_messages_fast_of_ne q' (fun hh => hq (hstrip.mpr hh)),
        hql]

/-- Witness for C8: `"Paris"` and `"PARIS"` give the same response as each
other on a two-record store. -/
theorem C8_case_insensitive_witness :
    lowerS [80, 97, 114, 105, 115] = lowerS [80, 65, 82, 73, 83] ∧
    (MessageSearchEngine.mk [exParis, exParisian] true).search
        [80, 97, 114, 105, 115] 1 10 0 =
      (MessageSearchEngine.mk [exParis, exParisian] true).search
        [80, 65, 82, 73, 83] 1 10 0 ∧
    (OptimizedMessageSearchEngine.ofMessages
        [exParis, exParisian]).search_fast [80, 97, 114, 105, 115] 1 10 0 =
      (OptimizedMessageSearchEngine.ofMessages
        [exParis, exParisian]).search_fast [80, 65, 82, 73, 83] 1 10 0 := by
  have h := C8_case_insensitive ⟨[exParis, exParisian], true⟩
    (OptimizedMessageSearchEngine.ofMessages [exParis, exParisian])
    [80, 97, 114, 105, 115] [80, 65, 82, 73, 83] 1 10 0 (by decide)
  exact ⟨by decide, h.1, h.2⟩

/-! ## Claim C9 -/

/-- C9: query resolution never mutates shared engine state: running
`search` / `search_fast` as a state transformer leaves `messages`,
`loaded`, `message_index` and `user_index` exactly as they were. -/
theorem C9_no_shared_state_mutation (e : MessageSearchEngine)
    (e2 : OptimizedMessageSearchEngine) (q : Str) (page limit : Int)
    (t : ℚ) :
    (e.searchRun q page limit t).2 = e ∧
    (e.searchRun q page limit t).2.messages = e.messages ∧
    (e.searchRun q page limit t).2.loaded = e.loaded ∧
    (e2.search_fastRun q page limit t).2 = e2 ∧
    (e2.search_fastRun q page limit t).2.messages = e2.messages ∧
    (e2.search_fastRun q page limit t).2.message_index =
      e2.message_index ∧
    (e2.search_fastRun q page limit t).2.user_index = e2.user_index ∧
    (e2.search_fastRun q page limit t).2.loaded = e2.loaded :=
  ⟨rfl, rfl, rfl, rfl, rfl, rfl, rfl, rfl⟩

/-! ## Claim C10 -/

/-- C10: results are deterministic apart from timing: with identical
engine state, query, page and limit, two runs differing only in the
measured elapsed time agree on `total`, `page`, `limit`, `total_pages`
and `items` (only `query_time_ms` reflects the timing input), in both
engines. -/
theorem C10_deterministic_modulo_time (e : MessageSearchEngine)
    (e2 : OptimizedMessageSearchEngine) (q : Str) (page limit : Int)
    (t₁ t₂ : ℚ) :
    (e.search q page limit t₁).total = (e.search q page limit t₂).total ∧
    (e.search q page limit t₁).page = (e.search q page limit t₂).page ∧
    (e.search q page limit t₁).limit = (e.search q page limit t₂).limit ∧
    (e.search q page limit t₁).total_pages =
      (e.search q page limit t₂).total_pages ∧
    (e.search q page limit t₁).items = (e.search q page limit t₂).items ∧
    (e.search q page limit t₁).query_time_ms = t₁ ∧
    (e2.search_fast q page limit t₁).total =
      (e2.search_fast q page limit t₂).total ∧
    (e2.search_fast q page limit t₁).page =
      (e2.search_fast q page limit t₂).page ∧
    (e2.search_fast q page limit t₁).limit =
      (e2.search_fast q page limit t₂).limit ∧
    (e2.search_fast q page limit t₁).total_pages =
      (e2.search_fast q page limit t₂).total_pages ∧
    (e2.search_fast q page limit t₁).items =
      (e2.search_fast q page limit t₂).items ∧
    (e2.search_fast q page limit t₁).query_time_ms = t₁ :=
  ⟨rfl, rfl, rfl, rfl, rfl, rfl, rfl, rfl, rfl, rfl, rfl, rfl⟩
